import Mathlib

/-!
Shallow embedding of `internal/reflect/struct.go` from
genesiscloud/terraform-plugin-framework: the struct marshaling engine with
its two transforms, `Struct` (decode: dynamic object → native record) and
`FromStruct` (encode: native record → dynamic object).

The external collaborators (the per-field dispatchers `BuildValue` and
`FromValue`, the `attr.Type` method surface, and Go's `reflect` package)
enter as parameters or as small structures mirroring exactly the methods
the source calls.  Context and options are threaded opaquely in the source
and never inspected, so they are dropped here; dispatcher parameters can
close over them.
-/

namespace TfReflect

/-- A path step list standing for `path.Path`; `AtName` appends a name. -/
abbrev Path := List String

/-- `path.AtName(name)` from the path package: extend the path by one name. -/
def Path.atName (p : Path) (n : String) : Path := p ++ [n]

/-- Render a path for use inside an error message (the `%s` of
`fmt.Errorf` in `FromStruct`). -/
def Path.render (p : Path) : String := String.intercalate "." p

/-- One diagnostic record: severity, attributed path, summary and detail,
mirroring the `diag` package's attribute diagnostics. -/
structure Diagnostic where
  isError : Bool
  path : Path
  summary : String
  detail : String
deriving DecidableEq, Repr

/-- `diag.Diagnostics`: an ordered collection of diagnostics. -/
abbrev Diagnostics := List Diagnostic

/-- `Diagnostics.HasError`: some member carries error severity. -/
def Diagnostics.hasError (ds : Diagnostics) : Bool := ds.any (·.isError)

/-- The dynamic type system of `tftypes`, reduced to what `struct.go`
inspects: object types with named attribute types, and everything else as
an opaque primitive kind. -/
inductive TfType where
  | object (attrs : List (String × TfType))
  | prim (name : String)
deriving Repr

/-- `Type.Is(tftypes.Object{})`: the receiver is an object type. -/
def TfType.isObject : TfType → Bool
  | .object _ => true
  | .prim _ => false

/-- Rendering used where the source formats a type with `%s`. -/
def TfType.render : TfType → String
  | .object _ => "object"
  | .prim n => n

/-- `tftypes.Value`: a dynamic value carrying its type; object values hold
a keyed bag of attribute values. -/
inductive TfValue where
  | obj (ty : TfType) (fields : List (String × TfValue))
  | atom (ty : TfType) (payload : String)
deriving Repr

/-- `Value.Type()`. -/
def TfValue.typeOf : TfValue → TfType
  | .obj ty _ => ty
  | .atom ty _ => ty

/-- `value.As(&map[string]tftypes.Value{...})`: succeeds exactly when the
value holds an object's keyed bag, erring otherwise. -/
def TfValue.asMap : TfValue → Option (List (String × TfValue))
  | .obj _ fields => some fields
  | .atom _ _ => none

/-- The zero `tftypes.Value` a Go map index returns for an absent key. -/
def TfValue.nilValue : TfValue := .atom (.prim "nil") ""

/-- A native Go value as `reflect.Value` exposes it to `struct.go`: a
struct is a list of fields in declaration order, each carrying its `tfsdk`
tag; anything else is an opaque scalar. -/
inductive GoValue where
  | strukt (fields : List (String × GoValue))
  | atom (s : String)
deriving Repr

/-- `target.Kind() == reflect.Struct`. -/
def GoValue.kindIsStruct : GoValue → Bool
  | .strukt _ => true
  | .atom _ => false

/-- The field list of a struct value (empty for non-structs). -/
def GoValue.fieldsOf : GoValue → List (String × GoValue)
  | .strukt fields => fields
  | .atom _ => []

/-- Rendering used where the source formats the target type with `%s`. -/
def GoValue.typeStr : GoValue → String
  | .strukt _ => "struct"
  | .atom _ => "atom"

mutual
/-- `reflect.New(target.Type()).Elem()`: the zero value of the target's
type, which has the same shape (same tagged field names) as the target. -/
def GoValue.zeroOf : GoValue → GoValue
  | .strukt fields => .strukt (GoValue.zeroFields fields)
  | .atom _ => .atom ""

/-- Zero value of every field, keeping names. -/
def GoValue.zeroFields : List (String × GoValue) → List (String × GoValue)
  | [] => []
  | (n, v) :: rest => (n, GoValue.zeroOf v) :: GoValue.zeroFields rest
end

/-- `fieldByIndex(v, i)`: the field slot at index `i`. -/
def GoValue.fieldAt (v : GoValue) (i : Nat) : GoValue :=
  match v.fieldsOf[i]? with
  | some p => p.2
  | none => .atom ""

/-- `structField.Set(x)` at index `i`: replace the field's value, keeping
its tag name and every other field. -/
def GoValue.setField : GoValue → Nat → GoValue → GoValue
  | .strukt fields, i, x =>
    .strukt (match fields[i]? with
      | some p => fields.set i (p.1, x)
      | none => fields)
  | .atom s, _, _ => .atom s

/-- Association-list lookup, standing for a Go map index with `ok`. -/
def alookup {α : Type} : List (String × α) → String → Option α
  | [], _ => none
  | (n, v) :: rest, k => if n = k then some v else alookup rest k

/-- Go map index without `ok`: absent keys give the zero value. -/
def alookupD {α : Type} (l : List (String × α)) (k : String) (dflt : α) : α :=
  match alookup l k with
  | some v => v
  | none => dflt

/-- Go map assignment `m[k] = v`: replace an existing entry or add one. -/
def ainsert {α : Type} : List (String × α) → String → α → List (String × α)
  | [], k, v => [(k, v)]
  | (n, w) :: rest, k, v =>
    if n = k then (k, v) :: rest else (n, w) :: ainsert rest k v

/-- The key list of an association list (a map's key set). -/
def akeys {α : Type} (l : List (String × α)) : List String := l.map Prod.fst

/-- Modelled from the spec: `typeFields` (the Field Mapper, in
`internal/reflect` but outside the given source): from a Record Type it
derives the ordered list of (external tag name, field index) descriptors,
excluding fields opted out with the `tfsdk:"-"` marker; names are unique
by the Record Type invariant. -/
def typeFields (v : GoValue) : List (String × Nat) :=
  v.fieldsOf.enum.filterMap fun p =>
    if p.2.1 = "-" then none else some (p.2.1, p.1)

/-- Modelled from the spec: `commaSeparatedString` (a helper outside the
given source): the mismatch sets are listed by name, sorted and
comma-joined. -/
def commaSeparatedString (l : List String) : String :=
  String.intercalate ", " (l.mergeSort (· ≤ ·))

/-- Modelled from the spec: `DiagIntoIncompatibleType` wrapped by
`diag.WithPath` (diag package, outside the given source): the
"target/type incompatible" error diagnostic carrying the wrapped error
text at the given path. -/
def diagIntoIncompatibleType (p : Path) (err : String) : Diagnostic :=
  { isError := true, path := p, summary := "Value Conversion Error",
    detail := "An unexpected error was encountered trying to build a value. " ++ err }

/-- The `attr.Type` argument of `Struct`: its dynamic Go type name (for
`%T`) and, when the type asserts to `attr.TypeWithAttributeTypes`, its
`AttributeTypes()` directory.  `A` is the opaque `attr.Type` of each
attribute, handed to the dispatcher. -/
structure AttrTypeD (A : Type) where
  tname : String
  withAttributeTypes : Option (List (String × A))

/-- The names tagged in the struct but absent from the object. -/
def objectMissingOf (targetFields : List (String × Nat))
    (objectFields : List (String × TfValue)) : List String :=
  (targetFields.map Prod.fst).filter fun f => (alookup objectFields f).isNone

/-- The names present in the object but not tagged in the struct. -/
def targetMissingOf (targetFields : List (String × Nat))
    (objectFields : List (String × TfValue)) : List String :=
  (objectFields.map Prod.fst).filter fun f =>
    !(targetFields.map Prod.fst).contains f

/-- The combined mismatch message of the structural diagnostic. -/
def mismatchMessage (objectMissing targetMissing : List String) : String :=
  "mismatch between struct and object: " ++ String.intercalate " "
    ((if objectMissing.length > 0 then
        ["Struct defines fields not found in object: " ++
          commaSeparatedString objectMissing ++ "."] else []) ++
     (if targetMissing.length > 0 then
        ["Object defines fields not found in struct: " ++
          commaSeparatedString targetMissing ++ "."] else []))

/-- The per-field loop of `Struct` (source lines 111–130): for each field
descriptor look up its declared type, call the external dispatcher
`BuildValue` on the object's value for that field and the current field
slot, abort on any error, otherwise set the slot and continue. -/
def StructLoop {A : Type}
    (bv : A → TfValue → GoValue → Path → GoValue × Diagnostics)
    (tname : String) (attrTypes : List (String × A))
    (objectFields : List (String × TfValue))
    (target : GoValue) (p : Path) :
    List (String × Nat) → GoValue → Diagnostics → GoValue × Diagnostics
  | [], result, diags => (result, diags)
  | (name, idx) :: rest, result, diags =>
    match alookup attrTypes name with
    | none =>
      (target, diags ++ [diagIntoIncompatibleType p
        ("could not find type information for attribute in supplied attr.Type "
          ++ tname)])
    | some attrType =>
      let structField := result.fieldAt idx
      let bres := bv attrType (alookupD objectFields name TfValue.nilValue)
        structField (p.atName name)
      let diags2 := diags ++ bres.2
      if diags2.hasError then (target, diags2)
      else StructLoop bv tname attrTypes objectFields target p rest
        (result.setField idx bres.1) diags2

/-- `Struct` (source lines 29–132), the decode engine: check the target is
a struct, the object is object-typed, the type asserts to
`attr.TypeWithAttributeTypes`, and the object's bag extracts; reconcile
the tagged names against the object's keys, aborting with one structural
diagnostic on mismatch; then run the per-field loop over a freshly
allocated zero record. -/
def Struct {A : Type}
    (bv : A → TfValue → GoValue → Path → GoValue × Diagnostics)
    (typ : AttrTypeD A) (object : TfValue) (target : GoValue) (p : Path) :
    GoValue × Diagnostics :=
  if target.kindIsStruct = false then
    (target, [diagIntoIncompatibleType p
      ("expected a struct type, got " ++ target.typeStr)])
  else if object.typeOf.isObject = false then
    (target, [diagIntoIncompatibleType p
      ("cannot reflect " ++ object.typeOf.render ++
        " into a struct, must be an object")])
  else
    match typ.withAttributeTypes with
    | none =>
      (target, [diagIntoIncompatibleType p
        ("cannot reflect object using type information provided by " ++
          typ.tname ++ ", " ++ typ.tname ++
          " must be an attr.TypeWithAttributeTypes")])
    | some attrTypes =>
      match object.asMap with
      | none =>
        (target, [diagIntoIncompatibleType p "object.As error"])
      | some objectFields =>
        let targetFields := typeFields target
        let objectMissing := objectMissingOf targetFields objectFields
        let targetMissing := targetMissingOf targetFields objectFields
        if objectMissing.length > 0 ∨ targetMissing.length > 0 then
          (target, [diagIntoIncompatibleType p
            (mismatchMessage objectMissing targetMissing)])
        else
          StructLoop bv typ.tname attrTypes objectFields target p
            targetFields (GoValue.zeroOf target) []

/-- The `attr.TypeWithAttributeTypes` argument of `FromStruct`: its Go
type name (for `%T`), its `AttributeTypes()` directory, the optional
`xattr.TypeWithValidate` hook, and the behaviour of
`typ.WithAttributeTypes(attrTypes).ValueFromTerraform` (reconstruction).
`A` is the opaque `attr.Type` of each attribute and `V` the opaque
`attr.Value` world of the dispatcher. -/
structure AttrTWAT (A V : Type) where
  tname : String
  attributeTypes : List (String × A)
  validate : Option (TfValue → Path → Diagnostics)
  valueFromTerraform : TfValue → Except String V

/-- Modelled from the spec: `toTerraformValueErrorDiag` (outside the given
source): the fatal conversion-error diagnostic when a produced value
cannot be turned into its canonical wire form. -/
def toTerraformValueErrorDiag (err : String) (p : Path) : Diagnostic :=
  { isError := true, path := p, summary := "Value Conversion Error",
    detail := "An unexpected error was encountered trying to convert the value. " ++ err }

/-- Modelled from the spec: `valueFromTerraformErrorDiag` (outside the
given source): the fatal conversion-error diagnostic when reconstruction
of the typed value from its wire form fails. -/
def valueFromTerraformErrorDiag (err : String) (p : Path) : Diagnostic :=
  { isError := true, path := p, summary := "Value Conversion Error",
    detail := "An unexpected error was encountered trying to convert from the value. " ++ err }

/-- The `diags.AddAttributeError` of `FromStruct`'s missing-type-directory
branch (source lines 162–171), with the error text naming the extended
path and the schema type. -/
def typeInfoErrorDiag (fpath : Path) (tname : String) : Diagnostic :=
  { isError := true, path := fpath, summary := "Value Conversion Error",
    detail := "An unexpected error was encountered trying to convert from struct value. This is always an error in the provider. Please report the following to the provider developer:\n\ncouldn't find type information for attribute at "
      ++ fpath.render ++ " in supplied attr.Type " ++ tname }

/-- The per-field loop of `FromStruct` (source lines 151–189).  For each
field descriptor, in order: call the external dispatcher `FromValue` with
the directory entry for the field (`nil`, i.e. `none`, when absent) and
abort if the combined diagnostics carry an error; then perform the
ok-check on the directory entry, aborting with the type-information
diagnostic when it is absent; record the attribute's wire type; take the
produced value's canonical wire form, aborting on error; run the optional
validation hook on that single wire value at the extended path, aborting
on error; record the wire value and continue.  `.error ds` stands for the
source's `return nil, diags`. -/
def FromStructLoop {A V : Type}
    (fv : Option A → GoValue → Path → V × Diagnostics)
    (tt : A → TfType) (ttv : V → Except String TfValue)
    (typ : AttrTWAT A V) (val : GoValue) (p : Path) :
    List (String × Nat) → List (String × TfType) → List (String × TfValue) →
    Diagnostics →
    Except Diagnostics (List (String × TfType) × List (String × TfValue) × Diagnostics)
  | [], objTypes, objValues, diags => .ok (objTypes, objValues, diags)
  | (name, idx) :: rest, objTypes, objValues, diags =>
    let fpath := p.atName name
    let fieldValue := val.fieldAt idx
    let fres := fv (alookup typ.attributeTypes name) fieldValue fpath
    let diags1 := diags ++ fres.2
    if diags1.hasError then .error diags1
    else
      match alookup typ.attributeTypes name with
      | none => .error (diags1 ++ [typeInfoErrorDiag fpath typ.tname])
      | some attrType =>
        let objTypes1 := ainsert objTypes name (tt attrType)
        match ttv fres.1 with
        | .error e => .error (diags1 ++ [toTerraformValueErrorDiag e fpath])
        | .ok tfObjVal =>
          let diags2 := match typ.validate with
            | some vfn => diags1 ++ vfn tfObjVal fpath
            | none => diags1
          if diags2.hasError then .error diags2
          else FromStructLoop fv tt ttv typ val p rest objTypes1
            (ainsert objValues name tfObjVal) diags2

/-- `FromStruct` (source lines 141–209), the encode engine: run the
per-field loop over the struct's field descriptors; assemble the wire-form
object value from the accumulated attribute-type and attribute-value
maps; run the optional validation hook on the assembled value at the
current path, aborting on error; finally reconstruct the typed value
through the schema type's own construction operation, reporting its error
as a conversion diagnostic. -/
def FromStruct {A V : Type}
    (fv : Option A → GoValue → Path → V × Diagnostics)
    (tt : A → TfType) (ttv : V → Except String TfValue)
    (typ : AttrTWAT A V) (val : GoValue) (p : Path) :
    Option V × Diagnostics :=
  match FromStructLoop fv tt ttv typ val p (typeFields val) [] [] [] with
  | .error diags => (none, diags)
  | .ok (objTypes, objValues, diags) =>
    let tfVal := TfValue.obj (TfType.object objTypes) objValues
    let diags2 := match typ.validate with
      | some vfn => diags ++ vfn tfVal p
      | none => diags
    if diags2.hasError then (none, diags2)
    else
      match typ.valueFromTerraform tfVal with
      | .error e => (none, diags2 ++ [valueFromTerraformErrorDiag e p])
      | .ok ret => (some ret, diags2)

/-- Adding a key to a key set the way Go map assignment does. -/
def addKey (ks : List String) (k : String) : List String :=
  if k ∈ ks then ks else ks ++ [k]

/-- The decode loop's effect on the record under construction: setting
each processed index to the corresponding field value of `val`. -/
def applySets (val : GoValue) (fs : List (String × Nat)) (r : GoValue) : GoValue :=
  fs.foldl (fun acc ni => acc.setField ni.2 (val.fieldAt ni.2)) r

/-- A witness dispatcher for encoding: wrap a scalar's payload as a
string-typed dynamic value. -/
def goAtomPayload : GoValue → String
  | .atom s => s
  | .strukt _ => ""

/-- A witness dispatcher for decoding: unwrap a dynamic scalar back into a
native scalar. -/
def tfPayloadToGo : TfValue → GoValue
  | .atom _ s => .atom s
  | .obj _ _ => .atom ""

/-! ### Basic lemmas about the embedding's list machinery -/

theorem hasError_append (d1 d2 : Diagnostics) :
    (d1 ++ d2).hasError = (d1.hasError || d2.hasError) := by
  simp [Diagnostics.hasError, List.any_append]

theorem alookup_eq_none_of_not_mem {α : Type} (l : List (String × α))
    (k : String) (h : k ∉ akeys l) : alookup l k = none := by
  induction l with
  | nil => rfl
  | cons hd tl ih =>
    obtain ⟨n, v⟩ := hd
    simp only [akeys, List.map_cons, List.mem_cons] at h
    push_neg at h
    simp only [alookup, if_neg (fun he : n = k => h.1 he.symm)]
    exact ih (by simpa [akeys] using h.2)

theorem alookup_append_of_not_mem {α : Type} (l1 l2 : List (String × α))
    (k : String) (h : k ∉ akeys l2) :
    alookup (l1 ++ l2) k = alookup l1 k := by
  induction l1 with
  | nil => simpa using alookup_eq_none_of_not_mem l2 k h
  | cons hd tl ih =>
    obtain ⟨n, v⟩ := hd
    simp only [List.cons_append, alookup]
    by_cases he : n = k
    · simp [he]
    · simp [he, ih]

theorem ainsert_of_not_mem {α : Type} (l : List (String × α)) (k : String)
    (v : α) (h : k ∉ akeys l) : ainsert l k v = l ++ [(k, v)] := by
  induction l with
  | nil => rfl
  | cons hd tl ih =>
    obtain ⟨n, w⟩ := hd
    simp only [akeys, List.map_cons, List.mem_cons] at h
    push_neg at h
    simp only [ainsert, if_neg (fun he : n = k => h.1 he.symm), List.cons_append,
      List.cons.injEq, true_and]
    exact ih (by simpa [akeys] using h.2)

theorem akeys_ainsert {α : Type} (l : List (String × α)) (k : String) (v : α) :
    akeys (ainsert l k v) = if k ∈ akeys l then akeys l else akeys l ++ [k] := by
  induction l with
  | nil => simp [ainsert, akeys]
  | cons hd tl ih =>
    obtain ⟨n, w⟩ := hd
    simp only [ainsert, akeys, List.map_cons]
    by_cases he : n = k
    · simp [he, akeys]
    · have hkn : ¬k = n := fun h => he h.symm
      simp only [if_neg he, List.map_cons, List.mem_cons, hkn, false_or]
      simp only [akeys] at ih
      rw [ih]
      split_ifs <;> simp

/-! ### Claim C6: the three preconditions of `Struct` -/

/-- Claim C6: whenever the target is not a struct kind, or the source
value's type is not an object type, or the supplied `attr.Type` does not
expose an attribute-type directory, `Struct` returns the
target/type-incompatible diagnostic together with the original target,
producing no partial result.  The dispatcher `bv` is universally
quantified and absent from the right-hand sides, so no per-field
conversion contributes to the result. -/
theorem struct_precondition_incompatible {A : Type}
    (bv : A → TfValue → GoValue → Path → GoValue × Diagnostics)
    (typ : AttrTypeD A) (object : TfValue) (target : GoValue) (p : Path) :
    (target.kindIsStruct = false →
      Struct bv typ object target p =
        (target, [diagIntoIncompatibleType p
          ("expected a struct type, got " ++ target.typeStr)])) ∧
    (target.kindIsStruct = true → object.typeOf.isObject = false →
      Struct bv typ object target p =
        (target, [diagIntoIncompatibleType p
          ("cannot reflect " ++ object.typeOf.render ++
            " into a struct, must be an object")])) ∧
    (target.kindIsStruct = true → object.typeOf.isObject = true →
      typ.withAttributeTypes = none →
      Struct bv typ object target p =
        (target, [diagIntoIncompatibleType p
          ("cannot reflect object using type information provided by " ++
            typ.tname ++ ", " ++ typ.tname ++
            " must be an attr.TypeWithAttributeTypes")])) := by
  refine ⟨fun h1 => ?_, fun h1 h2 => ?_, fun h1 h2 h3 => ?_⟩
  · simp [Struct, h1]
  · simp [Struct, h1, h2]
  · simp [Struct, h1, h2, h3]

/-- Concrete instance of `struct_precondition_incompatible`: a non-struct
target is rejected with the incompatibility diagnostic. -/
theorem struct_precondition_incompatible_witness :
    Struct (fun (_ : Unit) _ g _ => (g, []))
      ⟨"T", some []⟩ (TfValue.atom (.prim "string") "x") (GoValue.atom "z") [] =
      (GoValue.atom "z", [diagIntoIncompatibleType []
        ("expected a struct type, got " ++ (GoValue.atom "z").typeStr)]) :=
  (struct_precondition_incompatible (fun _ _ g _ => (g, []))
    ⟨"T", some []⟩ (TfValue.atom (.prim "string") "x") (GoValue.atom "z") []).1 rfl

/-! ### Claim C1: the structural reconciliation check of `Struct` -/

/-- Claim C1: when the tagged field names of the target and the key set of
the source object's bag differ in either direction, `Struct` reports
exactly one structural diagnostic whose message lists both mismatch sets
by name (sorted and comma-joined by `commaSeparatedString`), returns the
original target, and its result does not depend on the dispatcher `bv` —
no per-field conversion happens. -/
theorem struct_structural_mismatch_fail_fast {A : Type}
    (bv : A → TfValue → GoValue → Path → GoValue × Diagnostics)
    (typ : AttrTypeD A) (ats : List (String × A)) (oty : TfType)
    (ofs : List (String × TfValue)) (target : GoValue) (p : Path)
    (htgt : target.kindIsStruct = true)
    (hoty : oty.isObject = true)
    (hty : typ.withAttributeTypes = some ats)
    (hmm : objectMissingOf (typeFields target) ofs ≠ [] ∨
      targetMissingOf (typeFields target) ofs ≠ []) :
    Struct bv typ (TfValue.obj oty ofs) target p =
      (target, [diagIntoIncompatibleType p
        (mismatchMessage (objectMissingOf (typeFields target) ofs)
          (targetMissingOf (typeFields target) ofs))]) := by
  have hcond : (objectMissingOf (typeFields target) ofs).length > 0 ∨
      (targetMissingOf (typeFields target) ofs).length > 0 := by
    rcases hmm with h | h
    · exact Or.inl (List.length_pos.mpr h)
    · exact Or.inr (List.length_pos.mpr h)
  simp [Struct, htgt, hoty, hty, TfValue.typeOf, TfValue.asMap, hcond]

/-- Concrete instance of `struct_structural_mismatch_fail_fast`: a struct
with fields `b`, `a` against an object with only `c` yields the single
structural diagnostic with both sides listed sorted. -/
theorem struct_structural_mismatch_fail_fast_witness :
    Struct (fun (_ : Unit) _ g _ => (g, []))
      ⟨"T", some [("a", ()), ("b", ()), ("c", ())]⟩
      (TfValue.obj (.object [("c", .prim "string")])
        [("c", .atom (.prim "string") "v")])
      (GoValue.strukt [("b", .atom ""), ("a", .atom "")]) [] =
      (GoValue.strukt [("b", .atom ""), ("a", .atom "")],
        [diagIntoIncompatibleType []
          (mismatchMessage ["b", "a"] ["c"])]) := by
  have h := struct_structural_mismatch_fail_fast
    (fun (_ : Unit) _ g _ => (g, [])) ⟨"T", some [("a", ()), ("b", ()), ("c", ())]⟩
    [("a", ()), ("b", ()), ("c", ())] (.object [("c", .prim "string")])
    [("c", .atom (.prim "string") "v")]
    (GoValue.strukt [("b", .atom ""), ("a", .atom "")]) []
    rfl rfl rfl (by decide)
  simpa using h

/-! ### Lemmas about the decode per-field loop -/

/-- When the preconditions hold and reconciliation finds no mismatch,
`Struct` is the per-field loop run over the field descriptors and a fresh
zero record. -/
theorem struct_eq_loop {A : Type}
    (bv : A → TfValue → GoValue → Path → GoValue × Diagnostics)
    (typ : AttrTypeD A) (ats : List (String × A)) (oty : TfType)
    (ofs : List (String × TfValue)) (target : GoValue) (p : Path)
    (htgt : target.kindIsStruct = true)
    (hoty : oty.isObject = true)
    (hty : typ.withAttributeTypes = some ats)
    (hrec1 : objectMissingOf (typeFields target) ofs = [])
    (hrec2 : targetMissingOf (typeFields target) ofs = []) :
    Struct bv typ (TfValue.obj oty ofs) target p =
      StructLoop bv typ.tname ats ofs target p (typeFields target)
        (GoValue.zeroOf target) [] := by
  simp [Struct, htgt, hoty, hty, TfValue.typeOf, TfValue.asMap, hrec1, hrec2]

/-- Splitting the decode loop at a prefix every field of which converts
without error: running the whole list equals running the prefix and
continuing from its state, and the prefix accumulates no error. -/
theorem structLoop_append {A : Type}
    (bv : A → TfValue → GoValue → Path → GoValue × Diagnostics)
    (tname : String) (ats : List (String × A))
    (ofs : List (String × TfValue)) (target : GoValue) (p : Path)
    (pre rest : List (String × Nat)) :
    ∀ (r : GoValue) (d : Diagnostics), d.hasError = false →
    (∀ ni ∈ pre, ∃ t, alookup ats ni.1 = some t ∧
      ∀ slot, ((bv t (alookupD ofs ni.1 TfValue.nilValue) slot
        (p.atName ni.1)).2).hasError = false) →
    StructLoop bv tname ats ofs target p (pre ++ rest) r d =
      StructLoop bv tname ats ofs target p rest
        (StructLoop bv tname ats ofs target p pre r d).1
        (StructLoop bv tname ats ofs target p pre r d).2 ∧
    ((StructLoop bv tname ats ofs target p pre r d).2).hasError = false := by
  induction pre with
  | nil => intro r d hd _; exact ⟨rfl, hd⟩
  | cons hd tl ih =>
    intro r d hde hpre
    obtain ⟨name, idx⟩ := hd
    obtain ⟨t, hl, hbv⟩ := hpre (name, idx) (List.mem_cons_self _ _)
    have hstep : ((d ++ (bv t (alookupD ofs name TfValue.nilValue)
        (r.fieldAt idx) (p.atName name)).2)).hasError = false := by
      rw [hasError_append, hde, hbv (r.fieldAt idx)]
      rfl
    have hnext := ih (r.setField idx (bv t (alookupD ofs name TfValue.nilValue)
        (r.fieldAt idx) (p.atName name)).1)
      (d ++ (bv t (alookupD ofs name TfValue.nilValue)
        (r.fieldAt idx) (p.atName name)).2) hstep
      (fun ni hni => hpre ni (List.mem_cons_of_mem _ hni))
    constructor
    · simp only [List.cons_append, StructLoop, hl, hstep, Bool.false_eq_true,
        if_false]
      exact hnext.1
    · simp only [StructLoop, hl, hstep, Bool.false_eq_true, if_false]
      exact hnext.2

/-! ### Claim C5: fail-fast inside the decode per-field loop -/

/-- Claim C5: in `Struct`'s per-field loop, once the fields before `name`
have converted without error, a missing attribute-type-directory entry for
`name`, or an error-severity diagnostic from the dispatcher at `name`,
makes `Struct` return immediately: the original target together with the
diagnostics collected so far (the prefix run's diagnostics plus the
failure's), a right-hand side that never consults the remaining
descriptors `post` — no later field is converted. -/
theorem struct_loop_fail_fast {A : Type}
    (bv : A → TfValue → GoValue → Path → GoValue × Diagnostics)
    (typ : AttrTypeD A) (ats : List (String × A)) (oty : TfType)
    (ofs : List (String × TfValue)) (target : GoValue) (p : Path)
    (pre post : List (String × Nat)) (name : String) (idx : Nat)
    (htgt : target.kindIsStruct = true)
    (hoty : oty.isObject = true)
    (hty : typ.withAttributeTypes = some ats)
    (hrec1 : objectMissingOf (typeFields target) ofs = [])
    (hrec2 : targetMissingOf (typeFields target) ofs = [])
    (hsplit : typeFields target = pre ++ (name, idx) :: post)
    (hpre : ∀ ni ∈ pre, ∃ t, alookup ats ni.1 = some t ∧
      ∀ slot, ((bv t (alookupD ofs ni.1 TfValue.nilValue) slot
        (p.atName ni.1)).2).hasError = false) :
    (alookup ats name = none →
      Struct bv typ (TfValue.obj oty ofs) target p =
        (target,
          (StructLoop bv typ.tname ats ofs target p pre
            (GoValue.zeroOf target) []).2 ++
          [diagIntoIncompatibleType p
            ("could not find type information for attribute in supplied attr.Type "
              ++ typ.tname)])) ∧
    (∀ t, alookup ats name = some t →
      ((bv t (alookupD ofs name TfValue.nilValue)
        ((StructLoop bv typ.tname ats ofs target p pre
          (GoValue.zeroOf target) []).1.fieldAt idx)
        (p.atName name)).2).hasError = true →
      Struct bv typ (TfValue.obj oty ofs) target p =
        (target,
          (StructLoop bv typ.tname ats ofs target p pre
            (GoValue.zeroOf target) []).2 ++
          (bv t (alookupD ofs name TfValue.nilValue)
            ((StructLoop bv typ.tname ats ofs target p pre
              (GoValue.zeroOf target) []).1.fieldAt idx)
            (p.atName name)).2)) := by
  have hbase := struct_eq_loop bv typ ats oty ofs target p htgt hoty hty hrec1 hrec2
  have hsplitL := structLoop_append bv typ.tname ats ofs target p pre
    ((name, idx) :: post) (GoValue.zeroOf target) [] rfl hpre
  constructor
  · intro hnone
    rw [hbase, hsplit, hsplitL.1]
    simp [StructLoop, hnone]
  · intro t hsome herr
    rw [hbase, hsplit, hsplitL.1]
    have hcomb : (((StructLoop bv typ.tname ats ofs target p pre
        (GoValue.zeroOf target) []).2 ++
        (bv t (alookupD ofs name TfValue.nilValue)
          ((StructLoop bv typ.tname ats ofs target p pre
            (GoValue.zeroOf target) []).1.fieldAt idx)
          (p.atName name)).2)).hasError = true := by
      rw [hasError_append, hsplitL.2, herr]
      rfl
    simp only [StructLoop, hsome, hcomb, if_true]

/-- Concrete instance of `struct_loop_fail_fast`: with fields `a`, `b`,
`c`, a directory lacking `b`, and a clean conversion of `a`, `Struct`
stops at `b` with the type-information diagnostic and returns the original
target — field `c` is never converted. -/
theorem struct_loop_fail_fast_witness :
    Struct (fun (_ : Unit) _ _ _ => (GoValue.atom "v", []))
      ⟨"T", some [("a", ()), ("c", ())]⟩
      (TfValue.obj (.object [])
        [("a", .atom (.prim "string") "1"), ("b", .atom (.prim "string") "2"),
          ("c", .atom (.prim "string") "3")])
      (GoValue.strukt [("a", .atom ""), ("b", .atom ""), ("c", .atom "")]) [] =
      (GoValue.strukt [("a", .atom ""), ("b", .atom ""), ("c", .atom "")],
        [diagIntoIncompatibleType []
          "could not find type information for attribute in supplied attr.Type T"]) := by
  have h := (struct_loop_fail_fast
    (fun (_ : Unit) _ _ _ => (GoValue.atom "v", []))
    ⟨"T", some [("a", ()), ("c", ())]⟩ [("a", ()), ("c", ())] (.object [])
    [("a", .atom (.prim "string") "1"), ("b", .atom (.prim "string") "2"),
      ("c", .atom (.prim "string") "3")]
    (GoValue.strukt [("a", .atom ""), ("b", .atom ""), ("c", .atom "")]) []
    [("a", 0)] [("c", 2)] "b" 1 rfl rfl rfl rfl rfl rfl
    (by intro ni hni
        simp only [List.mem_singleton] at hni
        subst hni
        exact ⟨(), rfl, fun slot => rfl⟩)).1 rfl
  exact h.trans rfl

/-! ### Claim C8: dispatch happens before the encode type-directory check -/

/-- Claim C8: in `FromStruct`'s per-field loop, when the directory has no
entry for the field's name, the dispatcher `FromValue` is still invoked —
with `none` standing for Go's nil `attr.Type` — and only if that call
returns without error diagnostics is the "couldn't find type information"
diagnostic emitted; if the call itself errors, its diagnostics are
returned instead.  The right-hand side never consults `rest`. -/
theorem fromStruct_dispatch_before_typecheck {A V : Type}
    (fv : Option A → GoValue → Path → V × Diagnostics)
    (tt : A → TfType) (ttv : V → Except String TfValue)
    (typ : AttrTWAT A V) (val : GoValue) (p : Path)
    (name : String) (idx : Nat) (rest : List (String × Nat))
    (ts : List (String × TfType)) (vs : List (String × TfValue))
    (d : Diagnostics) (hd : d.hasError = false)
    (hmiss : alookup typ.attributeTypes name = none) :
    FromStructLoop fv tt ttv typ val p ((name, idx) :: rest) ts vs d =
      .error ((d ++ (fv none (val.fieldAt idx) (p.atName name)).2) ++
        (if ((fv none (val.fieldAt idx) (p.atName name)).2).hasError = true
          then [] else [typeInfoErrorDiag (p.atName name) typ.tname])) := by
  by_cases herr : ((fv none (val.fieldAt idx) (p.atName name)).2).hasError = true
  · have hcomb : ((d ++ (fv none (val.fieldAt idx) (p.atName name)).2)).hasError
        = true := by rw [hasError_append, hd, herr]; rfl
    simp [FromStructLoop, hmiss, hcomb, herr]
  · have hcomb : ((d ++ (fv none (val.fieldAt idx) (p.atName name)).2)).hasError
        = false := by
      rw [hasError_append, hd, Bool.eq_false_iff.mpr herr]; rfl
    simp [FromStructLoop, hmiss, hcomb, herr]

/-- Concrete instance of `fromStruct_dispatch_before_typecheck`: the
dispatcher, handed the nil type for the unlisted field `b`, reports its
own error, and that error — not the type-information diagnostic — comes
back. -/
theorem fromStruct_dispatch_before_typecheck_witness :
    FromStructLoop
      (fun (t : Option Unit) _ q =>
        ((), if t.isNone then
          [⟨true, q, "Value Conversion Error", "nil type"⟩] else []))
      (fun _ => TfType.prim "string") (fun _ => .ok TfValue.nilValue)
      ⟨"T", [], none, fun _ => .ok ()⟩
      (GoValue.strukt [("b", .atom "x")]) [] [("b", 0)] [] [] [] =
      .error [⟨true, ["b"], "Value Conversion Error", "nil type"⟩] := by
  have h := fromStruct_dispatch_before_typecheck
    (fun (t : Option Unit) _ q =>
      ((), if t.isNone then
        [⟨true, q, "Value Conversion Error", "nil type"⟩] else []))
    (fun _ => TfType.prim "string") (fun _ => .ok TfValue.nilValue)
    ⟨"T", [], none, fun _ => .ok ()⟩
    (GoValue.strukt [("b", .atom "x")]) [] "b" 0 [] [] [] [] rfl rfl
  exact h.trans rfl

/-! ### Claim C9: the per-field validation hook inside the encode loop -/

/-- Claim C9: when the schema type implements the validation hook,
`FromStruct`'s loop invokes it on each field's individual wire-form value
at the field-extended path, before recording the field's value; an
error-severity result aborts the whole call at once — the right-hand side
never consults `rest`, so every remaining field is skipped. -/
theorem fromStruct_per_field_validate_aborts {A V : Type}
    (fv : Option A → GoValue → Path → V × Diagnostics)
    (tt : A → TfType) (ttv : V → Except String TfValue)
    (typ : AttrTWAT A V) (val : GoValue) (p : Path)
    (name : String) (idx : Nat) (rest : List (String × Nat))
    (ts : List (String × TfType)) (vs : List (String × TfValue))
    (d : Diagnostics) (t : A) (w : TfValue)
    (vfn : TfValue → Path → Diagnostics)
    (hd : d.hasError = false)
    (hval : typ.validate = some vfn)
    (hsome : alookup typ.attributeTypes name = some t)
    (hfv : ((fv (some t) (val.fieldAt idx) (p.atName name)).2).hasError = false)
    (httv : ttv (fv (some t) (val.fieldAt idx) (p.atName name)).1 = .ok w)
    (hverr : (vfn w (p.atName name)).hasError = true) :
    FromStructLoop fv tt ttv typ val p ((name, idx) :: rest) ts vs d =
      .error ((d ++ (fv (some t) (val.fieldAt idx) (p.atName name)).2) ++
        vfn w (p.atName name)) := by
  have hcomb : ((d ++ (fv (some t) (val.fieldAt idx) (p.atName name)).2)).hasError
      = false := by rw [hasError_append, hd, hfv]; rfl
  have hcomb2 : ((d ++ ((fv (some t) (val.fieldAt idx) (p.atName name)).2 ++
      vfn w (p.atName name)))).hasError = true := by
    rw [← List.append_assoc, hasError_append, hcomb, hverr]; rfl
  simp [FromStructLoop, hsome, hcomb, httv, hval, hcomb2]

/-- Concrete instance of `fromStruct_per_field_validate_aborts`: the hook
rejects field `a`'s wire value at path `a`, and the loop aborts with
exactly that diagnostic. -/
theorem fromStruct_per_field_validate_aborts_witness :
    FromStructLoop (fun (_ : Option Unit) _ _ => (TfValue.nilValue, []))
      (fun _ => TfType.prim "string") Except.ok
      ⟨"T", [("a", ())],
        some (fun _ q => [⟨true, q, "Invalid Attribute Value", "rejected"⟩]),
        fun tv => .ok tv⟩
      (GoValue.strukt [("a", .atom "x")]) [] [("a", 0), ("z", 1)] [] [] [] =
      .error [⟨true, ["a"], "Invalid Attribute Value", "rejected"⟩] := by
  have h := fromStruct_per_field_validate_aborts
    (fun (_ : Option Unit) _ _ => (TfValue.nilValue, []))
    (fun _ => TfType.prim "string") Except.ok
    ⟨"T", [("a", ())],
      some (fun _ q => [⟨true, q, "Invalid Attribute Value", "rejected"⟩]),
      fun tv => .ok tv⟩
    (GoValue.strukt [("a", .atom "x")]) [] "a" 0 [("z", 1)] [] [] []
    () TfValue.nilValue
    (fun _ q => [⟨true, q, "Invalid Attribute Value", "rejected"⟩])
    rfl rfl rfl rfl rfl rfl
  exact h.trans rfl

/-! ### Claim C7: the whole-object validation hook of `FromStruct` -/

/-- The encode per-field loop never consults the reconstruction operation:
its run is unchanged when `valueFromTerraform` is replaced. -/
theorem fromStructLoop_vft_irrel {A V : Type}
    (fv : Option A → GoValue → Path → V × Diagnostics)
    (tt : A → TfType) (ttv : V → Except String TfValue)
    (tn : String) (ats : List (String × A))
    (vd : Option (TfValue → Path → Diagnostics))
    (g g2 : TfValue → Except String V) (val : GoValue) (p : Path) :
    ∀ (fs : List (String × Nat)) (ts : List (String × TfType))
      (vs : List (String × TfValue)) (d : Diagnostics),
    FromStructLoop fv tt ttv ⟨tn, ats, vd, g⟩ val p fs ts vs d =
      FromStructLoop fv tt ttv ⟨tn, ats, vd, g2⟩ val p fs ts vs d := by
  intro fs
  induction fs with
  | nil => intro ts vs d; rfl
  | cons hd tl ih =>
    intro ts vs d
    obtain ⟨n, i⟩ := hd
    simp only [FromStructLoop]
    repeat' split
    all_goals first | rfl | exact ih _ _ _

/-- Claim C7: when the schema type implements the validation hook, after
the per-field loop has accumulated every field without error, the hook is
invoked on the fully assembled wire-form object at the unextended path,
and an error-severity result aborts `FromStruct` with no value — for every
possible reconstruction operation `g2`, so `ValueFromTerraform` is never
reached. -/
theorem fromStruct_final_validate_aborts {A V : Type}
    (fv : Option A → GoValue → Path → V × Diagnostics)
    (tt : A → TfType) (ttv : V → Except String TfValue)
    (tn : String) (ats : List (String × A))
    (vfn : TfValue → Path → Diagnostics) (g : TfValue → Except String V)
    (val : GoValue) (p : Path) (ts : List (String × TfType))
    (vs : List (String × TfValue)) (d : Diagnostics)
    (hloop : FromStructLoop fv tt ttv ⟨tn, ats, some vfn, g⟩ val p
      (typeFields val) [] [] [] = .ok (ts, vs, d))
    (hd : d.hasError = false)
    (hverr : (vfn (TfValue.obj (TfType.object ts) vs) p).hasError = true) :
    ∀ g2 : TfValue → Except String V,
      FromStruct fv tt ttv ⟨tn, ats, some vfn, g2⟩ val p =
        (none, d ++ vfn (TfValue.obj (TfType.object ts) vs) p) := by
  intro g2
  have hloop2 : FromStructLoop fv tt ttv ⟨tn, ats, some vfn, g2⟩ val p
      (typeFields val) [] [] [] = .ok (ts, vs, d) := by
    rw [← fromStructLoop_vft_irrel fv tt ttv tn ats (some vfn) g g2 val p]
    exact hloop
  have hcomb : ((d ++ vfn (TfValue.obj (TfType.object ts) vs) p)).hasError
      = true := by rw [hasError_append, hd, hverr]; rfl
  simp [FromStruct, hloop2, hcomb]

/-- Concrete instance of `fromStruct_final_validate_aborts`: the hook
accepts each single field value (extended path) but rejects the assembled
object at the root path, and `FromStruct` returns no value with exactly
that diagnostic, whatever the reconstruction would have produced. -/
theorem fromStruct_final_validate_aborts_witness :
    FromStruct (fun (_ : Option Unit) _ _ => (TfValue.nilValue, []))
      (fun _ => TfType.prim "string") Except.ok
      ⟨"T", [("a", ())],
        some (fun _ q => if q.isEmpty then
          [⟨true, q, "Invalid Object", "rejected"⟩] else []),
        fun _ => .error "never reached"⟩
      (GoValue.strukt [("a", .atom "x")]) [] =
      (none, [⟨true, [], "Invalid Object", "rejected"⟩]) := by
  have h := fromStruct_final_validate_aborts
    (fun (_ : Option Unit) _ _ => (TfValue.nilValue, []))
    (fun _ => TfType.prim "string") Except.ok "T" [("a", ())]
    (fun _ q => if q.isEmpty then
      [⟨true, q, "Invalid Object", "rejected"⟩] else [])
    (fun _ => .ok TfValue.nilValue)
    (GoValue.strukt [("a", .atom "x")]) []
    [("a", TfType.prim "string")] [("a", TfValue.nilValue)] []
    rfl rfl rfl (fun _ => .error "never reached")
  exact h.trans rfl

/-! ### Claim C10: key sets of the assembled attribute maps -/

theorem akeys_ainsert_addKey {α : Type} (l : List (String × α)) (k : String)
    (v : α) : akeys (ainsert l k v) = addKey (akeys l) k :=
  akeys_ainsert l k v

theorem foldl_addKey_of_nodup (names : List String) :
    ∀ ks : List String, names.Nodup → (∀ n ∈ names, n ∉ ks) →
    names.foldl addKey ks = ks ++ names := by
  induction names with
  | nil => intro ks _ _; simp
  | cons n tl ih =>
    intro ks hnd hdis
    have hn : n ∉ ks := hdis n (List.mem_cons_self _ _)
    have h1 : addKey ks n = ks ++ [n] := by simp [addKey, hn]
    have hnd' : tl.Nodup := (List.nodup_cons.mp hnd).2
    have hdis' : ∀ m ∈ tl, m ∉ ks ++ [n] := by
      intro m hm
      simp only [List.mem_append, List.mem_singleton]
      push_neg
      exact ⟨hdis m (List.mem_cons_of_mem _ hm),
        fun he => (List.nodup_cons.mp hnd).1 (he ▸ hm)⟩
    simp only [List.foldl_cons, h1, ih (ks ++ [n]) hnd' hdis', List.append_assoc,
      List.singleton_append]

/-- Whenever the encode loop completes, each processed field passed its
name through one `ainsert` into both accumulated maps, so the final key
lists are the start keys extended by the processed names. -/
theorem fromStructLoop_keys {A V : Type}
    (fv : Option A → GoValue → Path → V × Diagnostics)
    (tt : A → TfType) (ttv : V → Except String TfValue)
    (typ : AttrTWAT A V) (val : GoValue) (p : Path) :
    ∀ (fs : List (String × Nat)) (ts : List (String × TfType))
      (vs : List (String × TfValue)) (d : Diagnostics)
      (ts' : List (String × TfType)) (vs' : List (String × TfValue))
      (d' : Diagnostics),
    FromStructLoop fv tt ttv typ val p fs ts vs d = .ok (ts', vs', d') →
    akeys ts' = (fs.map Prod.fst).foldl addKey (akeys ts) ∧
    akeys vs' = (fs.map Prod.fst).foldl addKey (akeys vs) := by
  intro fs
  induction fs with
  | nil =>
    intro ts vs d ts' vs' d' h
    simp only [FromStructLoop, Except.ok.injEq, Prod.mk.injEq] at h
    obtain ⟨h1, h2, h3⟩ := h
    subst h1
    subst h2
    simp
  | cons hd tl ih =>
    intro ts vs d ts' vs' d' h
    obtain ⟨n, i⟩ := hd
    rcases Bool.eq_false_or_eq_true
      ((d ++ (fv (alookup typ.attributeTypes n) (val.fieldAt i)
        (p.atName n)).2)).hasError with h1 | h1
    · simp [FromStructLoop, h1] at h
    · cases halk : alookup typ.attributeTypes n with
      | none =>
        rw [halk] at h1
        simp [FromStructLoop, halk, h1] at h
      | some t =>
        rw [halk] at h1
        cases httv : ttv (fv (some t) (val.fieldAt i) (p.atName n)).1 with
        | error e => simp [FromStructLoop, halk, h1, httv] at h
        | ok w =>
          cases hvd : typ.validate with
          | none =>
            have e1 : FromStructLoop fv tt ttv typ val p ((n, i) :: tl) ts vs d =
                FromStructLoop fv tt ttv typ val p tl (ainsert ts n (tt t))
                  (ainsert vs n w)
                  (d ++ (fv (some t) (val.fieldAt i) (p.atName n)).2) := by
              simp [FromStructLoop, halk, h1, httv, hvd]
            rw [e1] at h
            have hih := ih _ _ _ _ _ _ h
            simpa [akeys_ainsert_addKey] using hih
          | some vfn =>
            rcases Bool.eq_false_or_eq_true
              ((d ++ ((fv (some t) (val.fieldAt i) (p.atName n)).2 ++
                vfn w (p.atName n)))).hasError with h2 | h2
            · simp [FromStructLoop, halk, h1, httv, hvd, h2] at h
            · have e1 : FromStructLoop fv tt ttv typ val p ((n, i) :: tl) ts vs d =
                  FromStructLoop fv tt ttv typ val p tl (ainsert ts n (tt t))
                    (ainsert vs n w)
                    (d ++ ((fv (some t) (val.fieldAt i) (p.atName n)).2 ++
                      vfn w (p.atName n))) := by
                simp [FromStructLoop, halk, h1, httv, hvd, h2]
              rw [e1] at h
              have hih := ih _ _ _ _ _ _ h
              simpa [akeys_ainsert_addKey] using hih

/-- Claim C10: the attribute-type map and attribute-value map from which
`FromStruct` builds the wire-form object value both have key list exactly
the tagged-field name list of the input struct — one entry per field
descriptor, nothing else — for every supplied directory, however many
extra entries it carries. -/
theorem fromStruct_wire_object_keys {A V : Type}
    (fv : Option A → GoValue → Path → V × Diagnostics)
    (tt : A → TfType) (ttv : V → Except String TfValue)
    (typ : AttrTWAT A V) (val : GoValue) (p : Path)
    (ts : List (String × TfType)) (vs : List (String × TfValue))
    (d : Diagnostics)
    (hnd : ((typeFields val).map Prod.fst).Nodup)
    (hloop : FromStructLoop fv tt ttv typ val p (typeFields val) [] [] [] =
      .ok (ts, vs, d)) :
    akeys ts = (typeFields val).map Prod.fst ∧
    akeys vs = (typeFields val).map Prod.fst := by
  have hkeys := fromStructLoop_keys fv tt ttv typ val p (typeFields val)
    [] [] [] ts vs d hloop
  have hfold : ((typeFields val).map Prod.fst).foldl addKey (akeys ([] : List (String × TfType))) =
      (typeFields val).map Prod.fst := by
    have := foldl_addKey_of_nodup ((typeFields val).map Prod.fst) [] hnd
      (by intro n _; simp)
    simpa [akeys] using this
  have hfold2 : ((typeFields val).map Prod.fst).foldl addKey (akeys ([] : List (String × TfValue))) =
      (typeFields val).map Prod.fst := by
    have := foldl_addKey_of_nodup ((typeFields val).map Prod.fst) [] hnd
      (by intro n _; simp)
    simpa [akeys] using this
  exact ⟨hkeys.1.trans hfold, hkeys.2.trans hfold2⟩

/-- Concrete instance of `fromStruct_wire_object_keys`: a two-field struct
against a directory with an extra attribute `zz` still yields maps keyed
exactly `a`, `b`. -/
theorem fromStruct_wire_object_keys_witness :
    akeys [("a", TfType.prim "string"), ("b", TfType.prim "string")] =
      ["a", "b"] ∧
    akeys [("a", TfValue.nilValue), ("b", TfValue.nilValue)] = ["a", "b"] := by
  have h := fromStruct_wire_object_keys
    (fun (_ : Option Unit) _ _ => (TfValue.nilValue, []))
    (fun _ => TfType.prim "string") Except.ok
    ⟨"T", [("a", ()), ("b", ()), ("zz", ())], none, fun tv => .ok tv⟩
    (GoValue.strukt [("a", .atom "x"), ("b", .atom "y")]) []
    [("a", TfType.prim "string"), ("b", TfType.prim "string")]
    [("a", TfValue.nilValue), ("b", TfValue.nilValue)] []
    (by decide) rfl
  simpa using h

/-! ### Helper lemmas towards the round-trip claim -/

theorem zeroFields_eq_map (flds : List (String × GoValue)) :
    GoValue.zeroFields flds = flds.map fun q => (q.1, GoValue.zeroOf q.2) := by
  induction flds with
  | nil => rfl
  | cons hd tl ih => simp [GoValue.zeroFields, ih]

theorem fieldAt_strukt (flds : List (String × GoValue)) (j : Nat)
    (q : String × GoValue) (hq : flds[j]? = some q) :
    (GoValue.strukt flds).fieldAt j = q.2 := by
  simp [GoValue.fieldAt, GoValue.fieldsOf, hq]

theorem alookup_map_self {β : Type} (g : String → β) :
    ∀ (fs : List (String × Nat)) (n : String), n ∈ fs.map Prod.fst →
    alookup (fs.map fun ni => (ni.1, g ni.1)) n = some (g n) := by
  intro fs
  induction fs with
  | nil => intro n h; simp at h
  | cons hd tl ih =>
    intro n h
    by_cases he : hd.1 = n
    · simp [alookup, he]
    · have : n ∈ tl.map Prod.fst := by
        simp only [List.map_cons, List.mem_cons] at h
        exact h.resolve_left fun hh => he hh.symm
      simp [alookup, he, ih n this]

theorem enumFrom_filterMap_all_tagged (flds : List (String × GoValue)) :
    (∀ f ∈ flds, f.1 ≠ "-") → ∀ k : Nat,
    ((List.enumFrom k flds).filterMap fun p =>
      if p.2.1 = "-" then none else some (p.2.1, p.1)) =
      (List.enumFrom k flds).map fun p => (p.2.1, p.1) := by
  induction flds with
  | nil => intro _ k; rfl
  | cons hd tl ih =>
    intro h k
    have hhd : hd.1 ≠ "-" := h hd (List.mem_cons_self _ _)
    have htl : ∀ f ∈ tl, f.1 ≠ "-" := fun f hf => h f (List.mem_cons_of_mem _ hf)
    simp only [List.enumFrom, List.filterMap_cons, List.map_cons, hhd, if_neg hhd]
    exact congrArg _ (ih htl (k + 1))

/-- For a struct value every field of which carries a real tag, the field
descriptors are exactly the (tag, index) pairs in declaration order. -/
theorem typeFields_all_tagged (flds : List (String × GoValue))
    (h : ∀ f ∈ flds, f.1 ≠ "-") :
    typeFields (GoValue.strukt flds) = flds.enum.map fun p => (p.2.1, p.1) :=
  enumFrom_filterMap_all_tagged flds h 0

theorem typeFields_all_tagged_names (flds : List (String × GoValue))
    (h : ∀ f ∈ flds, f.1 ≠ "-") :
    (typeFields (GoValue.strukt flds)).map Prod.fst = flds.map Prod.fst := by
  rw [typeFields_all_tagged flds h, List.map_map]
  have : (Prod.fst ∘ fun p : Nat × (String × GoValue) => (p.2.1, p.1)) =
      (Prod.fst ∘ Prod.snd) := rfl
  rw [this, ← List.map_map, List.enum_map_snd]

theorem typeFields_all_tagged_idxs (flds : List (String × GoValue))
    (h : ∀ f ∈ flds, f.1 ≠ "-") :
    (typeFields (GoValue.strukt flds)).map Prod.snd = List.range flds.length := by
  rw [typeFields_all_tagged flds h, List.map_map]
  have : (Prod.snd ∘ fun p : Nat × (String × GoValue) => (p.2.1, p.1)) =
      Prod.fst := rfl
  rw [this, List.enum_map_fst]

theorem applySets_strukt (val : GoValue) :
    ∀ (fs : List (String × Nat)) (bs : List (String × GoValue)),
    ∃ cs, applySets val fs (GoValue.strukt bs) = GoValue.strukt cs := by
  intro fs
  induction fs with
  | nil => intro bs; exact ⟨bs, rfl⟩
  | cons hd tl ih =>
    intro bs
    simp only [applySets, List.foldl_cons]
    cases hb : bs[hd.2]? with
    | none =>
      have : (GoValue.strukt bs).setField hd.2 (val.fieldAt hd.2) =
          GoValue.strukt bs := by simp [GoValue.setField, hb]
      rw [this]
      exact ih bs
    | some q =>
      have : (GoValue.strukt bs).setField hd.2 (val.fieldAt hd.2) =
          GoValue.strukt (bs.set hd.2 (q.1, val.fieldAt hd.2)) := by
        simp [GoValue.setField, hb]
      rw [this]
      exact ih _

theorem applySets_fieldsOf_getElem (val : GoValue) :
    ∀ (fs : List (String × Nat)) (bs : List (String × GoValue)) (j : Nat),
    (applySets val fs (GoValue.strukt bs)).fieldsOf[j]? =
      if j ∈ fs.map Prod.snd then bs[j]?.map fun q => (q.1, val.fieldAt j)
      else bs[j]? := by
  intro fs
  induction fs with
  | nil =>
    intro bs j
    simp [applySets, GoValue.fieldsOf]
  | cons hd tl ih =>
    intro bs j
    obtain ⟨n, i⟩ := hd
    have hstep : applySets val ((n, i) :: tl) (GoValue.strukt bs) =
        applySets val tl ((GoValue.strukt bs).setField i (val.fieldAt i)) := rfl
    rw [hstep]
    cases hb : bs[i]? with
    | none =>
      have hset : (GoValue.strukt bs).setField i (val.fieldAt i) =
          GoValue.strukt bs := by simp [GoValue.setField, hb]
      rw [hset, ih bs j]
      by_cases hj : j ∈ tl.map Prod.snd
      · simp [hj]
      · by_cases hji : j = i
        · subst hji
          simp [hj, hb]
        · simp only [List.map_cons, List.mem_cons]
          simp [hj, hji]
    | some q =>
      have hset : (GoValue.strukt bs).setField i (val.fieldAt i) =
          GoValue.strukt (bs.set i (q.1, val.fieldAt i)) := by
        simp [GoValue.setField, hb]
      rw [hset, ih _ j]
      have hlen : i < bs.length := by
        by_contra hlt
        rw [List.getElem?_eq_none (by omega)] at hb
        exact Option.noConfusion hb
      by_cases hji : j = i
      · subst hji
        have hs : (bs.set j (q.1, val.fieldAt j))[j]? =
            some (q.1, val.fieldAt j) := by
          rw [List.getElem?_set]
          simp [hlen]
        by_cases hj : j ∈ tl.map Prod.snd
        · simp [hj, hs, hb]
        · simp only [List.map_cons, List.mem_cons, true_or, if_pos]
          simp [hj, hs, hb]
      · have hs : (bs.set i (q.1, val.fieldAt i))[j]? = bs[j]? :=
          List.getElem?_set_ne (fun he => hji he.symm)
        by_cases hj : j ∈ tl.map Prod.snd
        · simp [hj, hs]
        · simp only [List.map_cons, List.mem_cons]
          simp [hj, hji, hs]

/-- Folding the converted values over a zero record reproduces the
original struct when every field is tagged. -/
theorem applySets_zero_roundtrip (flds : List (String × GoValue))
    (h : ∀ f ∈ flds, f.1 ≠ "-") :
    applySets (GoValue.strukt flds) (typeFields (GoValue.strukt flds))
      (GoValue.zeroOf (GoValue.strukt flds)) = GoValue.strukt flds := by
  have hz : GoValue.zeroOf (GoValue.strukt flds) =
      GoValue.strukt (flds.map fun q => (q.1, GoValue.zeroOf q.2)) := by
    simp [GoValue.zeroOf, zeroFields_eq_map]
  rw [hz]
  obtain ⟨cs, hcs⟩ := applySets_strukt (GoValue.strukt flds)
    (typeFields (GoValue.strukt flds)) (flds.map fun q => (q.1, GoValue.zeroOf q.2))
  rw [hcs]
  have hcseq : cs = flds := by
    apply List.ext_getElem?
    intro j
    have := applySets_fieldsOf_getElem (GoValue.strukt flds)
      (typeFields (GoValue.strukt flds))
      (flds.map fun q => (q.1, GoValue.zeroOf q.2)) j
    rw [hcs] at this
    simp only [GoValue.fieldsOf] at this
    rw [this, typeFields_all_tagged_idxs flds h]
    by_cases hj : j < flds.length
    · have hjm : j ∈ List.range flds.length := List.mem_range.mpr hj
      have hq : flds[j]? = some flds[j] := List.getElem?_eq_getElem hj
      have hfa : (GoValue.strukt flds).fieldAt j = flds[j].2 :=
        fieldAt_strukt flds j flds[j] hq
      simp [hjm, List.getElem?_map, hq, hfa]
    · have hjm : j ∉ List.range flds.length := by
        simp [List.mem_range]; omega
      have hq : flds[j]? = none := List.getElem?_eq_none (by omega)
      simp [hjm, List.getElem?_map, hq]
  rw [hcseq]

/-- The decode loop under per-field success: every directory entry found
and every dispatcher call clean, returning exactly the converted field
value — the loop sets each processed index and keeps the diagnostics. -/
theorem structLoop_sets {A : Type}
    (bv : A → TfValue → GoValue → Path → GoValue × Diagnostics)
    (tname : String) (ats : List (String × A))
    (ofs : List (String × TfValue)) (target : GoValue) (p : Path)
    (val : GoValue) (tOf : String → A) :
    ∀ (fs : List (String × Nat)) (r : GoValue) (d : Diagnostics),
    d.hasError = false →
    (∀ ni ∈ fs, alookup ats ni.1 = some (tOf ni.1) ∧
      ∀ slot, bv (tOf ni.1) (alookupD ofs ni.1 TfValue.nilValue) slot
        (p.atName ni.1) = (val.fieldAt ni.2, [])) →
    StructLoop bv tname ats ofs target p fs r d = (applySets val fs r, d) := by
  intro fs
  induction fs with
  | nil => intro r d _ _; rfl
  | cons hd tl ih =>
    intro r d hde hfs
    obtain ⟨n, i⟩ := hd
    obtain ⟨hlk, hbv⟩ := hfs (n, i) (List.mem_cons_self _ _)
    have hbv' := hbv (r.fieldAt i)
    have hstep : StructLoop bv tname ats ofs target p ((n, i) :: tl) r d =
        StructLoop bv tname ats ofs target p tl
          (r.setField i (val.fieldAt i)) d := by
      simp [StructLoop, hlk, hbv', hde]
    rw [hstep, ih _ d hde (fun ni hni => hfs ni (List.mem_cons_of_mem _ hni))]
    rfl

/-- The encode loop under per-field success with no validation hook: each
field's directory entry resolves, the dispatcher is clean, and the wire
form extracts, so the loop appends one typed entry and one value entry per
field and keeps the diagnostics. -/
theorem fromStructLoop_success {A V : Type}
    (fv : Option A → GoValue → Path → V × Diagnostics)
    (tt : A → TfType) (ttv : V → Except String TfValue)
    (typ : AttrTWAT A V) (val : GoValue) (p : Path)
    (tOf : String → A) (wOf : String → V) (tfOf : String → TfValue)
    (hvd : typ.validate = none) :
    ∀ (fs : List (String × Nat)) (ts : List (String × TfType))
      (vs : List (String × TfValue)) (d : Diagnostics),
    d.hasError = false →
    (∀ ni ∈ fs, alookup typ.attributeTypes ni.1 = some (tOf ni.1) ∧
      fv (some (tOf ni.1)) (val.fieldAt ni.2) (p.atName ni.1) = (wOf ni.1, []) ∧
      ttv (wOf ni.1) = .ok (tfOf ni.1)) →
    ((fs.map Prod.fst).Nodup) →
    (∀ n ∈ fs.map Prod.fst, n ∉ akeys ts ∧ n ∉ akeys vs) →
    FromStructLoop fv tt ttv typ val p fs ts vs d =
      .ok (ts ++ fs.map fun ni => (ni.1, tt (tOf ni.1)),
           vs ++ (fs.map fun ni => (ni.1, tfOf ni.1)), d) := by
  intro fs
  induction fs with
  | nil => intro ts vs d _ _ _ _; simp [FromStructLoop]
  | cons hd tl ih =>
    intro ts vs d hde hfs hnd hfresh
    obtain ⟨n, i⟩ := hd
    obtain ⟨hlk, hfv, httv⟩ := hfs (n, i) (List.mem_cons_self _ _)
    have hts : ainsert ts n (tt (tOf n)) = ts ++ [(n, tt (tOf n))] :=
      ainsert_of_not_mem _ _ _ (hfresh n (by simp)).1
    have hvs : ainsert vs n (tfOf n) = vs ++ [(n, tfOf n)] :=
      ainsert_of_not_mem _ _ _ (hfresh n (by simp)).2
    have hstep : FromStructLoop fv tt ttv typ val p ((n, i) :: tl) ts vs d =
        FromStructLoop fv tt ttv typ val p tl (ts ++ [(n, tt (tOf n))])
          (vs ++ [(n, tfOf n)]) d := by
      simp [FromStructLoop, hlk, hfv, httv, hvd, hde, hts, hvs]
    have hnd' : (n :: tl.map Prod.fst).Nodup := by
      simpa using hnd
    have hndtl : (tl.map Prod.fst).Nodup := (List.nodup_cons.mp hnd').2
    have hn_ne : ∀ m ∈ tl.map Prod.fst, m ≠ n := by
      intro m hm he
      exact (List.nodup_cons.mp hnd').1 (he ▸ hm)
    have hfresh' : ∀ m ∈ tl.map Prod.fst,
        m ∉ akeys (ts ++ [(n, tt (tOf n))]) ∧ m ∉ akeys (vs ++ [(n, tfOf n)]) := by
      intro m hm
      have hm' := hfresh m (List.mem_cons_of_mem _ hm)
      constructor
      · simp only [akeys, List.map_append, List.mem_append]
        push_neg
        exact ⟨by simpa [akeys] using hm'.1, by simp [hn_ne m hm]⟩
      · simp only [akeys, List.map_append, List.mem_append]
        push_neg
        exact ⟨by simpa [akeys] using hm'.2, by simp [hn_ne m hm]⟩
    rw [hstep, ih _ _ d hde (fun ni hni => hfs ni (List.mem_cons_of_mem _ hni))
      hndtl hfresh']
    simp

/-! ### Claim C2 (amended): encode-then-decode round trip -/

/-- Claim C2, amended with the hypothesis that every field of the record
carries a real tag (no `tfsdk:"-"` opt-out field): for a record whose tags
are unique and fully covered by the directory, whose per-field conversions
succeed and invert each other, with no validation hook and an identity
reconstruction, encoding with `FromStruct` and decoding the produced wire
object with `Struct` returns the record itself with no diagnostics. -/
theorem struct_fromStruct_roundtrip {A : Type}
    (bv : A → TfValue → GoValue → Path → GoValue × Diagnostics)
    (fv : Option A → GoValue → Path → TfValue × Diagnostics)
    (tt : A → TfType) (ttv : TfValue → Except String TfValue)
    (typ : AttrTWAT A TfValue) (typD : AttrTypeD A)
    (flds : List (String × GoValue)) (p : Path)
    (tOf : String → A) (wOf : String → TfValue) (tfOf : String → TfValue)
    (htags : ∀ f ∈ flds, f.1 ≠ "-")
    (hnd : (flds.map Prod.fst).Nodup)
    (htyD : typD.withAttributeTypes = some typ.attributeTypes)
    (hvd : typ.validate = none)
    (hvft : typ.valueFromTerraform = Except.ok)
    (hfield : ∀ ni ∈ typeFields (GoValue.strukt flds),
      alookup typ.attributeTypes ni.1 = some (tOf ni.1) ∧
      fv (some (tOf ni.1)) ((GoValue.strukt flds).fieldAt ni.2)
        (p.atName ni.1) = (wOf ni.1, []) ∧
      ttv (wOf ni.1) = .ok (tfOf ni.1) ∧
      ∀ slot, bv (tOf ni.1) (tfOf ni.1) slot (p.atName ni.1) =
        ((GoValue.strukt flds).fieldAt ni.2, [])) :
    ∃ wire : TfValue,
      FromStruct fv tt ttv typ (GoValue.strukt flds) p = (some wire, []) ∧
      Struct bv typD wire (GoValue.strukt flds) p =
        (GoValue.strukt flds, []) := by
  have hndtf : ((typeFields (GoValue.strukt flds)).map Prod.fst).Nodup := by
    rw [typeFields_all_tagged_names flds htags]; exact hnd
  have hloop := fromStructLoop_success fv tt ttv typ (GoValue.strukt flds) p
    tOf wOf tfOf hvd (typeFields (GoValue.strukt flds)) [] [] [] rfl
    (fun ni hni => ⟨(hfield ni hni).1, (hfield ni hni).2.1,
      (hfield ni hni).2.2.1⟩)
    hndtf (by intro n _; simp [akeys])
  simp only [List.nil_append] at hloop
  refine ⟨TfValue.obj
    (TfType.object ((typeFields (GoValue.strukt flds)).map fun ni =>
      (ni.1, tt (tOf ni.1))))
    ((typeFields (GoValue.strukt flds)).map fun ni => (ni.1, tfOf ni.1)),
    ?_, ?_⟩
  · simp [FromStruct, hloop, hvd, hvft, Diagnostics.hasError]
  · have hvkeys : ((typeFields (GoValue.strukt flds)).map fun ni =>
        (ni.1, tfOf ni.1)).map Prod.fst =
        (typeFields (GoValue.strukt flds)).map Prod.fst := by
      rw [List.map_map]; rfl
    have hrec1 : objectMissingOf (typeFields (GoValue.strukt flds))
        ((typeFields (GoValue.strukt flds)).map fun ni => (ni.1, tfOf ni.1)) = [] := by
      apply List.filter_eq_nil_iff.mpr
      intro f hf
      rw [alookup_map_self tfOf (typeFields (GoValue.strukt flds)) f hf]
      simp
    have hrec2 : targetMissingOf (typeFields (GoValue.strukt flds))
        ((typeFields (GoValue.strukt flds)).map fun ni => (ni.1, tfOf ni.1)) = [] := by
      apply List.filter_eq_nil_iff.mpr
      intro f hf
      rw [hvkeys] at hf
      obtain ⟨a, ha, hae⟩ := List.mem_map.mp hf
      have hfm : ∃ x, (f, x) ∈ typeFields (GoValue.strukt flds) :=
        ⟨a.2, by rw [← hae]; simpa using ha⟩
      simp [hfm]
    rw [struct_eq_loop bv typD typ.attributeTypes
      (TfType.object ((typeFields (GoValue.strukt flds)).map fun ni =>
        (ni.1, tt (tOf ni.1))))
      ((typeFields (GoValue.strukt flds)).map fun ni => (ni.1, tfOf ni.1))
      (GoValue.strukt flds) p rfl rfl htyD hrec1 hrec2]
    rw [structLoop_sets bv typD.tname typ.attributeTypes
      ((typeFields (GoValue.strukt flds)).map fun ni => (ni.1, tfOf ni.1))
      (GoValue.strukt flds) p (GoValue.strukt flds) tOf
      (typeFields (GoValue.strukt flds)) (GoValue.zeroOf (GoValue.strukt flds))
      [] rfl ?_]
    · rw [applySets_zero_roundtrip flds htags]
    · intro ni hni
      refine ⟨(hfield ni hni).1, ?_⟩
      intro slot
      have hmem : ni.1 ∈ (typeFields (GoValue.strukt flds)).map Prod.fst :=
        List.mem_map.mpr ⟨ni, hni, rfl⟩
      have hlk := alookup_map_self tfOf (typeFields (GoValue.strukt flds))
        ni.1 hmem
      rw [alookupD, hlk]
      exact (hfield ni hni).2.2.2 slot

/-- Counterexample to claim C2 as stated: a record with an opted-out
field (`tfsdk:"-"`) holding a non-zero value is fully schema-covered on
its tagged fields and converts cleanly both ways, yet decoding the encoded
object rebuilds the record from a fresh zero value, so the opted-out field
comes back zeroed and the result differs from the original record. -/
theorem struct_fromStruct_roundtrip_cex :
    FromStruct (fun (_ : Option Unit) _ _ => (TfValue.atom (.prim "string") "x", []))
      (fun _ => TfType.prim "string") Except.ok
      ⟨"T", [("a", ())], none, Except.ok⟩
      (GoValue.strukt [("a", .atom "x"), ("-", .atom "y")]) [] =
      (some (TfValue.obj (.object [("a", .prim "string")])
        [("a", .atom (.prim "string") "x")]), []) ∧
    Struct (fun (_ : Unit) _ _ _ => (GoValue.atom "x", []))
      ⟨"T", some [("a", ())]⟩
      (TfValue.obj (.object [("a", .prim "string")])
        [("a", .atom (.prim "string") "x")])
      (GoValue.strukt [("a", .atom "x"), ("-", .atom "y")]) [] =
      (GoValue.strukt [("a", .atom "x"), ("-", .atom "")], []) ∧
    GoValue.strukt [("a", .atom "x"), ("-", .atom "")] ≠
      GoValue.strukt [("a", .atom "x"), ("-", .atom "y")] := by
  refine ⟨rfl, rfl, ?_⟩
  intro h
  simp at h

/-- Concrete instance of `struct_fromStruct_roundtrip`: the spec's own
scenario, a `{name, age}` record, encodes and decodes back to itself. -/
theorem struct_fromStruct_roundtrip_witness :
    ∃ wire : TfValue,
      FromStruct
        (fun (_ : Option String) g _ =>
          (TfValue.atom (.prim "string") (goAtomPayload g), []))
        (fun _ => TfType.prim "string") Except.ok
        ⟨"T", [("name", "name"), ("age", "age")], none, Except.ok⟩
        (GoValue.strukt [("name", .atom "Ana"), ("age", .atom "30")]) [] =
        (some wire, []) ∧
      Struct
        (fun (_ : String) tf _ _ => (tfPayloadToGo tf, []))
        ⟨"T", some [("name", "name"), ("age", "age")]⟩ wire
        (GoValue.strukt [("name", .atom "Ana"), ("age", .atom "30")]) [] =
        (GoValue.strukt [("name", .atom "Ana"), ("age", .atom "30")], []) := by
  apply struct_fromStruct_roundtrip
    (fun (_ : String) tf _ _ => (tfPayloadToGo tf, []))
    (fun (_ : Option String) g _ =>
      (TfValue.atom (.prim "string") (goAtomPayload g), []))
    (fun _ => TfType.prim "string") Except.ok
    ⟨"T", [("name", "name"), ("age", "age")], none, Except.ok⟩
    ⟨"T", some [("name", "name"), ("age", "age")]⟩
    [("name", GoValue.atom "Ana"), ("age", GoValue.atom "30")] []
    (fun n => n)
    (fun n => if n = "name" then TfValue.atom (.prim "string") "Ana"
      else TfValue.atom (.prim "string") "30")
    (fun n => if n = "name" then TfValue.atom (.prim "string") "Ana"
      else TfValue.atom (.prim "string") "30")
  · intro f hf
    simp only [List.mem_cons, List.not_mem_nil, or_false] at hf
    rcases hf with rfl | rfl
    · decide
    · decide
  · decide
  · rfl
  · rfl
  · rfl
  · intro ni hni
    have htf : typeFields (GoValue.strukt
        [("name", .atom "Ana"), ("age", .atom "30")]) =
        [("name", 0), ("age", 1)] := rfl
    rw [htf] at hni
    simp only [List.mem_cons, List.not_mem_nil, or_false] at hni
    rcases hni with rfl | rfl
    · exact ⟨rfl, rfl, rfl, fun slot => rfl⟩
    · exact ⟨rfl, rfl, rfl, fun slot => rfl⟩

/-! ### Claim C3: extra schema attributes with no matching field -/

/-- Counterexample to claim C3 as stated: the attribute-type directory
declares `y` with no matching tagged field, yet with the object's own
field bag matching the struct exactly, `Struct` succeeds, and `FromStruct`
— which consults the directory only at the struct's field names — succeeds
as well.  Neither direction fails, let alone names `y`. -/
theorem struct_reverse_symmetry_cex :
    Struct (fun (_ : Unit) tf _ _ => (tfPayloadToGo tf, []))
      ⟨"T", some [("a", ()), ("y", ())]⟩
      (TfValue.obj (.object [("a", .prim "string")])
        [("a", .atom (.prim "string") "v")])
      (GoValue.strukt [("a", .atom "")]) [] =
      (GoValue.strukt [("a", .atom "v")], []) ∧
    FromStruct
      (fun (_ : Option Unit) g _ =>
        (TfValue.atom (.prim "string") (goAtomPayload g), []))
      (fun _ => TfType.prim "string") Except.ok
      ⟨"T", [("a", ()), ("y", ())], none, Except.ok⟩
      (GoValue.strukt [("a", .atom "v")]) [] =
      (some (TfValue.obj (.object [("a", .prim "string")])
        [("a", .atom (.prim "string") "v")]), []) :=
  ⟨rfl, rfl⟩

/-- The encode loop consults the directory only at the processed field
names: two directories agreeing there give identical runs. -/
theorem fromStructLoop_dir_congr {A V : Type}
    (fv : Option A → GoValue → Path → V × Diagnostics)
    (tt : A → TfType) (ttv : V → Except String TfValue)
    (tn : String) (ats1 ats2 : List (String × A))
    (vd : Option (TfValue → Path → Diagnostics))
    (g : TfValue → Except String V) (val : GoValue) (p : Path) :
    ∀ (fs : List (String × Nat)) (ts : List (String × TfType))
      (vs : List (String × TfValue)) (d : Diagnostics),
    (∀ ni ∈ fs, alookup ats1 ni.1 = alookup ats2 ni.1) →
    FromStructLoop fv tt ttv ⟨tn, ats1, vd, g⟩ val p fs ts vs d =
      FromStructLoop fv tt ttv ⟨tn, ats2, vd, g⟩ val p fs ts vs d := by
  intro fs
  induction fs with
  | nil => intro ts vs d _; rfl
  | cons hd tl ih =>
    intro ts vs d h
    obtain ⟨n, i⟩ := hd
    have hn : alookup ats1 n = alookup ats2 n := h (n, i) (List.mem_cons_self _ _)
    simp only [FromStructLoop, hn]
    repeat' split
    all_goals first
      | rfl
      | exact ih _ _ _ (fun ni hni => h ni (List.mem_cons_of_mem _ hni))

/-- `FromStruct` ignores directory entries at names that are not tagged
fields of the input struct. -/
theorem fromStruct_dir_extension_irrel {A V : Type}
    (fv : Option A → GoValue → Path → V × Diagnostics)
    (tt : A → TfType) (ttv : V → Except String TfValue)
    (tn : String) (ats extra : List (String × A))
    (vd : Option (TfValue → Path → Diagnostics))
    (g : TfValue → Except String V) (val : GoValue) (p : Path)
    (hdis : ∀ k ∈ akeys extra, k ∉ (typeFields val).map Prod.fst) :
    FromStruct fv tt ttv ⟨tn, ats ++ extra, vd, g⟩ val p =
      FromStruct fv tt ttv ⟨tn, ats, vd, g⟩ val p := by
  have hcongr := fromStructLoop_dir_congr fv tt ttv tn (ats ++ extra) ats vd g
    val p (typeFields val) [] [] []
    (by
      intro ni hni
      apply alookup_append_of_not_mem
      intro hk
      exact hdis ni.1 hk (List.mem_map.mpr ⟨ni, hni, rfl⟩))
  simp only [FromStruct, hcongr]

/-- Claim C3, amended: an attribute `y` declared with no matching tagged
field makes the decode direction fail — naming `y` under "Object defines
fields not found in struct" — exactly when `y` is among the source
object's own fields (which the data-model invariant ties to its object
type); the encode direction does not consult such entries at all:
extending the directory with attributes at non-field names leaves
`FromStruct`'s behaviour unchanged, so no diagnostic can arise from them. -/
theorem struct_reverse_symmetry_amended {A V : Type}
    (bv : A → TfValue → GoValue → Path → GoValue × Diagnostics)
    (typD : AttrTypeD A) (ats : List (String × A)) (oty : TfType)
    (ofs : List (String × TfValue)) (target : GoValue) (p : Path) (y : String)
    (fv : Option A → GoValue → Path → V × Diagnostics)
    (tt : A → TfType) (ttv : V → Except String TfValue)
    (tn : String) (ats2 extra : List (String × A))
    (vd : Option (TfValue → Path → Diagnostics))
    (g : TfValue → Except String V) (val : GoValue) (p2 : Path) :
    (target.kindIsStruct = true → oty.isObject = true →
      typD.withAttributeTypes = some ats →
      y ∈ akeys ofs → y ∉ (typeFields target).map Prod.fst →
      y ∈ targetMissingOf (typeFields target) ofs ∧
      Struct bv typD (TfValue.obj oty ofs) target p =
        (target, [diagIntoIncompatibleType p
          (mismatchMessage (objectMissingOf (typeFields target) ofs)
            (targetMissingOf (typeFields target) ofs))])) ∧
    ((∀ k ∈ akeys extra, k ∉ (typeFields val).map Prod.fst) →
      FromStruct fv tt ttv ⟨tn, ats2 ++ extra, vd, g⟩ val p2 =
        FromStruct fv tt ttv ⟨tn, ats2, vd, g⟩ val p2) := by
  constructor
  · intro htgt hoty hty hyobj hytags
    have hymem : y ∈ targetMissingOf (typeFields target) ofs := by
      unfold targetMissingOf
      apply List.mem_filter.mpr
      exact ⟨hyobj, by simp [hytags]⟩
    refine ⟨hymem, ?_⟩
    have hmm : (targetMissingOf (typeFields target) ofs).length > 0 :=
      List.length_pos.mpr (List.ne_nil_of_mem hymem)
    simp [Struct, htgt, hoty, hty, TfValue.typeOf, TfValue.asMap, hmm]
  · exact fromStruct_dir_extension_irrel fv tt ttv tn ats2 extra vd g val p2

/-- Concrete instance of `struct_reverse_symmetry_amended`: the object
carries the extra attribute `y`, decode aborts with the structural
diagnostic listing `y`; and an extra `y` entry in the encode directory
changes nothing. -/
theorem struct_reverse_symmetry_amended_witness :
    ("y" ∈ targetMissingOf
        (typeFields (GoValue.strukt [("a", GoValue.atom "")]))
        [("a", TfValue.atom (.prim "string") "v"),
          ("y", TfValue.atom (.prim "string") "w")] ∧
      Struct (fun (_ : Unit) tf _ _ => (tfPayloadToGo tf, []))
        ⟨"T", some [("a", ()), ("y", ())]⟩
        (TfValue.obj (.object [("a", .prim "string"), ("y", .prim "string")])
          [("a", TfValue.atom (.prim "string") "v"),
            ("y", TfValue.atom (.prim "string") "w")])
        (GoValue.strukt [("a", GoValue.atom "")]) [] =
        (GoValue.strukt [("a", GoValue.atom "")],
          [diagIntoIncompatibleType [] (mismatchMessage [] ["y"])])) ∧
    FromStruct
      (fun (_ : Option Unit) g _ =>
        (TfValue.atom (.prim "string") (goAtomPayload g), []))
      (fun _ => TfType.prim "string") Except.ok
      ⟨"T", [("a", ())] ++ [("y", ())], none, Except.ok⟩
      (GoValue.strukt [("a", GoValue.atom "v")]) [] =
      FromStruct
        (fun (_ : Option Unit) g _ =>
          (TfValue.atom (.prim "string") (goAtomPayload g), []))
        (fun _ => TfType.prim "string") Except.ok
        ⟨"T", [("a", ())], none, Except.ok⟩
        (GoValue.strukt [("a", GoValue.atom "v")]) [] := by
  have h := struct_reverse_symmetry_amended
    (fun (_ : Unit) tf _ _ => (tfPayloadToGo tf, []))
    ⟨"T", some [("a", ()), ("y", ())]⟩ [("a", ()), ("y", ())]
    (.object [("a", .prim "string"), ("y", .prim "string")])
    [("a", TfValue.atom (.prim "string") "v"),
      ("y", TfValue.atom (.prim "string") "w")]
    (GoValue.strukt [("a", GoValue.atom "")]) [] "y"
    (fun (_ : Option Unit) g _ =>
      (TfValue.atom (.prim "string") (goAtomPayload g), []))
    (fun _ => TfType.prim "string") Except.ok
    "T" [("a", ())] [("y", ())] none Except.ok
    (GoValue.strukt [("a", GoValue.atom "v")]) []
  have h1 := h.1 rfl rfl rfl (by decide) (by decide)
  exact ⟨⟨h1.1, h1.2⟩, h.2 (by decide)⟩

/-! ### Claim C4: a tagged field absent from the schema's attributes -/

/-- Counterexample to claim C4 as stated: field `z` is tagged in the
struct and absent from the attribute-type directory, but present in the
source object.  `Struct` does fail — yet with the type-information
diagnostic, whose text contains no `z` at all (and whose path is the bare
root), not with a structural diagnostic naming `z` as a struct-side field
missing from the object/attributes. -/
theorem struct_symmetry_cex :
    Struct (fun (_ : Unit) tf _ _ => (tfPayloadToGo tf, []))
      ⟨"T", some []⟩
      (TfValue.obj (.object [("z", .prim "string")])
        [("z", TfValue.atom (.prim "string") "v")])
      (GoValue.strukt [("z", GoValue.atom "")]) [] =
      (GoValue.strukt [("z", GoValue.atom "")],
        [diagIntoIncompatibleType []
          "could not find type information for attribute in supplied attr.Type T"]) ∧
    (diagIntoIncompatibleType []
      "could not find type information for attribute in supplied attr.Type T").detail.data.all
        (fun c => !(c = 'z')) = true ∧
    (diagIntoIncompatibleType []
      "could not find type information for attribute in supplied attr.Type T").path = [] := by
  refine ⟨rfl, ?_, rfl⟩
  decide

/-- Claim C4, amended: for a tagged field `x` absent from the schema's
attributes, the decode direction produces the structural diagnostic
naming `x` under "Struct defines fields not found in object" exactly when
`x` is also missing from the source object's field bag; the encode
direction, whose loop reaches `x` with a clean dispatcher call, fails with
the type-information diagnostic whose path is the current path extended by
`x`. -/
theorem struct_symmetry_amended {A V : Type}
    (bv : A → TfValue → GoValue → Path → GoValue × Diagnostics)
    (typD : AttrTypeD A) (ats : List (String × A)) (oty : TfType)
    (ofs : List (String × TfValue)) (target : GoValue) (p : Path) (x : String)
    (fv : Option A → GoValue → Path → V × Diagnostics)
    (tt : A → TfType) (ttv : V → Except String TfValue)
    (typ : AttrTWAT A V) (val : GoValue) (p2 : Path) (idx : Nat)
    (rest : List (String × Nat)) (ts : List (String × TfType))
    (vs : List (String × TfValue)) (d : Diagnostics) :
    (target.kindIsStruct = true → oty.isObject = true →
      typD.withAttributeTypes = some ats →
      x ∈ (typeFields target).map Prod.fst → alookup ofs x = none →
      x ∈ objectMissingOf (typeFields target) ofs ∧
      Struct bv typD (TfValue.obj oty ofs) target p =
        (target, [diagIntoIncompatibleType p
          (mismatchMessage (objectMissingOf (typeFields target) ofs)
            (targetMissingOf (typeFields target) ofs))])) ∧
    (d.hasError = false → alookup typ.attributeTypes x = none →
      ((fv none (val.fieldAt idx) (p2.atName x)).2).hasError = false →
      FromStructLoop fv tt ttv typ val p2 ((x, idx) :: rest) ts vs d =
        .error ((d ++ (fv none (val.fieldAt idx) (p2.atName x)).2) ++
          [typeInfoErrorDiag (p2.atName x) typ.tname])) := by
  constructor
  · intro htgt hoty hty hxtags hxnone
    have hxmem : x ∈ objectMissingOf (typeFields target) ofs := by
      unfold objectMissingOf
      apply List.mem_filter.mpr
      exact ⟨hxtags, by simp [hxnone]⟩
    refine ⟨hxmem, ?_⟩
    have hmm : (objectMissingOf (typeFields target) ofs).length > 0 :=
      List.length_pos.mpr (List.ne_nil_of_mem hxmem)
    simp [Struct, htgt, hoty, hty, TfValue.typeOf, TfValue.asMap, hmm]
  · intro hd hmiss hfv
    have hcomb : ((d ++ (fv none (val.fieldAt idx) (p2.atName x)).2)).hasError
        = false := by rw [hasError_append, hd, hfv]; rfl
    simp [FromStructLoop, hmiss, hcomb]

/-- Concrete instance of `struct_symmetry_amended`: field `b` is tagged
but absent from object and directory; decode reports it under "Struct
defines fields not found in object", and the encode loop reports the
type-information diagnostic at path `b`. -/
theorem struct_symmetry_amended_witness :
    ("b" ∈ objectMissingOf
        (typeFields (GoValue.strukt [("a", GoValue.atom ""), ("b", GoValue.atom "")]))
        [("a", TfValue.atom (.prim "string") "v")] ∧
      Struct (fun (_ : Unit) tf _ _ => (tfPayloadToGo tf, []))
        ⟨"T", some [("a", ())]⟩
        (TfValue.obj (.object [("a", .prim "string")])
          [("a", TfValue.atom (.prim "string") "v")])
        (GoValue.strukt [("a", GoValue.atom ""), ("b", GoValue.atom "")]) [] =
        (GoValue.strukt [("a", GoValue.atom ""), ("b", GoValue.atom "")],
          [diagIntoIncompatibleType [] (mismatchMessage ["b"] [])])) ∧
    FromStructLoop
      (fun (_ : Option Unit) _ _ => (TfValue.nilValue, []))
      (fun _ => TfType.prim "string") Except.ok
      ⟨"T", [("a", ())], none, Except.ok⟩
      (GoValue.strukt [("a", GoValue.atom ""), ("b", GoValue.atom "")]) []
      [("b", 1)] [] [] [] =
      .error [typeInfoErrorDiag ["b"] "T"] := by
  have h := struct_symmetry_amended
    (fun (_ : Unit) tf _ _ => (tfPayloadToGo tf, []))
    ⟨"T", some [("a", ())]⟩ [("a", ())] (.object [("a", .prim "string")])
    [("a", TfValue.atom (.prim "string") "v")]
    (GoValue.strukt [("a", GoValue.atom ""), ("b", GoValue.atom "")]) [] "b"
    (fun (_ : Option Unit) _ _ => (TfValue.nilValue, []))
    (fun _ => TfType.prim "string") Except.ok
    ⟨"T", [("a", ())], none, Except.ok⟩
    (GoValue.strukt [("a", GoValue.atom ""), ("b", GoValue.atom "")]) [] 1
    [] [] [] []
  have h1 := h.1 rfl rfl rfl (by decide) rfl
  have h2 := h.2 rfl rfl rfl
  exact ⟨⟨h1.1, h1.2⟩, h2.trans rfl⟩

end TfReflect
